import Mathlib

/-
Verification of the SerialDispatch wire codec and dispatch engine
(src/serialdispatch/serialdispatch.py) against its design specification.

Shallow embedding conventions:
  - Python strings are modelled as lists of code points restricted to ASCII,
    so that the UTF-8 encoding of a string is the string itself and the
    character count equals the list length.  Topics are therefore plain
    byte lists (`List Int`).
  - Python integers are `Int`; bytes appended to a message are kept as
    `Int` because the source appends unmasked integers (`msg.extend`).
  - Python `x & 255` on an arbitrary integer equals `x.emod 256`
    (Python bitwise AND and floor modulus agree for a positive power-of-two
    mask), and `(x & 0xFF00) >> 8` equals `(x.emod 65536).ediv 256`;
    the embedding uses the `emod`/`ediv` forms for `Int` operands and the
    literal `&&&`/`>>>` forms where the operand is a `Nat`.
  - Python dictionaries are association lists in insertion order: a new key
    is appended at the end, an existing key is updated in place, `pop`
    removes the binding of the key.  Keys in any dict built by the code are
    unique, so removing every binding of a key models `pop` exactly.
  - Exceptions are `Except Err`; an uncaught exception in the ingest loop
    terminates it, which the loop model `drain` reflects by stopping with
    the error and leaving the remaining frames unprocessed.
  - Subscriber callbacks are opaque identifiers (`Nat`); invoking one is
    recorded as an event carrying the topic, the callback identifier and a
    snapshot of the topic store visible to the callback at call time
    (callbacks receive no argument and read the store through `get_data`).
-/

namespace SerialDispatch

/-- Python exception kinds raised by the source code paths modelled here. -/
inductive Err where
  | indexError
  | keyError
  | typeError
  | attributeError
  | valueError
deriving DecidableEq, Repr

/-- The format specifiers, from the class attribute `format_specifiers`
dictionary of `SerialDispatch`. -/
inductive Fmt where
  | NONE
  | STRING
  | U8
  | S8
  | U16
  | S16
  | U32
  | S32
  | FLOAT
deriving DecidableEq, Repr

/-- The reversed specifier dictionary built at the top of `publish`:
name to numeric code. -/
def fmtCode : Fmt → Nat
  | .NONE => 0
  | .STRING => 1
  | .U8 => 2
  | .S8 => 3
  | .U16 => 4
  | .S16 => 5
  | .U32 => 6
  | .S32 => 7
  | .FLOAT => 8

/-- The class attribute `format_specifiers` dictionary: numeric code to
specifier; `none` where Python raises `KeyError`. -/
def codeFmt : Int → Option Fmt
  | 0 => some .NONE
  | 1 => some .STRING
  | 2 => some .U8
  | 3 => some .S8
  | 4 => some .U16
  | 5 => some .S16
  | 6 => some .U32
  | 7 => some .S32
  | 8 => some .FLOAT
  | _ => none

/-- A Python value appearing inside a published data row: an integer or an
(ASCII-modelled) string. -/
inductive PyVal where
  | vint (i : Int)
  | vstr (s : List Int)
deriving DecidableEq, Repr

/-- A value stored in `topical_data` for a topic: either a decoded string
or a list of decoded numeric rows. -/
inductive PyData where
  | pstr (s : List Int)
  | prows (rs : List (List Int))
deriving DecidableEq, Repr

/-- The `topical_data` dictionary (insertion-ordered association list). -/
abbrev Store := List (List Int × PyData)

/-- The `subscribers` dictionary: topic to list of callback identifiers. -/
abbrev Registry := List (List Int × List Nat)

/-- A recorded callback invocation: topic, callback identifier, and the
topic store visible to the callback while it runs. -/
abbrev Event := List Int × Nat × Store

/-- Dictionary lookup (`d[k]` successful case / `k in d`). -/
def getKey {α β : Type} [DecidableEq α] : List (α × β) → α → Option β
  | [], _ => none
  | (k, v) :: rest, a => if k = a then some v else getKey rest a

/-- Dictionary update `d[k] = v`: updates the binding in place when the key
exists, otherwise appends it (Python insertion order). -/
def setKey {α β : Type} [DecidableEq α] : List (α × β) → α → β → List (α × β)
  | [], a, v => [(a, v)]
  | (k, w) :: rest, a, v => if k = a then (a, v) :: rest else (k, w) :: setKey rest a v

/-- Dictionary removal `d.pop(k)`.  Every binding of the key is removed;
on the dictionaries built by the code keys are unique, so this coincides
with removing the single binding. -/
def eraseKey {α β : Type} [DecidableEq α] : List (α × β) → α → List (α × β)
  | [], _ => []
  | (k, w) :: rest, a => if k = a then eraseKey rest a else (k, w) :: eraseKey rest a

/-- The `length` computed at the top of `publish`: character count of
`data[0][0]` when the format list is exactly `['STRING']`, element count of
`data[0]` otherwise; Python raises `IndexError` on a missing element and
`TypeError` on `len` of an integer. -/
def publishLength (data : List (List PyVal)) (fmts : List Fmt) : Except Err Nat :=
  if fmts = [Fmt.STRING] then
    match data.head? with
    | none => .error .indexError
    | some row0 =>
      match row0.head? with
      | none => .error .indexError
      | some (.vstr s) => .ok s.length
      | some (.vint _) => .error .typeError
  else
    match data.head? with
    | none => .error .indexError
    | some row0 => .ok row0.length

/-- The format-specifier packing loop of `publish`: an even-indexed
specifier starts a new byte with its code in the low nibble, an odd-indexed
specifier adds its code shifted left by four to that byte. -/
def packSpecifiers : List Fmt → List Nat
  | [] => []
  | [a] => [fmtCode a &&& 15]
  | a :: b :: rest => ((fmtCode a &&& 15) + ((fmtCode b &&& 15) <<< 4)) :: packSpecifiers rest

/-- Reads `data[i]` as a list of integers: `IndexError` if the row is
missing, `TypeError` where Python would compare a string with an integer. -/
def getIntRow (data : List (List PyVal)) (i : Nat) : Except Err (List Int) :=
  match data.get? i with
  | none => .error .indexError
  | some row =>
    row.mapM fun v =>
      match v with
      | .vint x => Except.ok x
      | .vstr _ => Except.error Err.typeError

/-- The two little-endian payload bytes `x & 255` and `(x & 65280) >> 8`
emitted for one 16-bit element after the sign offset. -/
def bytes16 (u : Int) : List Int :=
  [u.emod 256, (u.emod 65536).ediv 256]

/-- The four little-endian payload bytes emitted for one 32-bit element
after the sign offset (`x & 255`, `(x & 65280) >> 8`, `(x & 16711680) >> 16`,
`(x & 4278190080) >> 24`). -/
def bytes32 (u : Int) : List Int :=
  [u.emod 256, (u.emod 65536).ediv 256,
    (u.emod 16777216).ediv 65536, (u.emod 4294967296).ediv 16777216]

/-- One iteration of the payload loop of `publish` for the specifier at
position `i` of the format list.  Mirrors the source branch for branch,
including the sign-offset condition `x if x > 0 else x + width` (note the
strict comparison) and the `else` branch that only logs for `FLOAT` and
emits no bytes. -/
def encodeRow (f : Fmt) (i : Nat) (data : List (List PyVal)) : Except Err (List Int) :=
  match f with
  | .NONE | .STRING =>
    match data.head? with
    | none => .error .indexError
    | some row0 =>
      match row0.head? with
      | none => .error .indexError
      | some (.vstr s) => .ok s
      | some (.vint _) => .error .typeError
  | .U8 | .S8 => do
    let row ← getIntRow data i
    .ok (row.map fun x => if x > 0 then x else x + 256)
  | .U16 | .S16 => do
    let row ← getIntRow data i
    .ok ((row.map fun x => if x > 0 then x else x + 65536).map bytes16).flatten
  | .U32 | .S32 => do
    let row ← getIntRow data i
    .ok ((row.map fun x => if x > 0 then x else x + 4294967296).map bytes32).flatten
  | .FLOAT => .ok []

/-- The whole payload loop `for i, e in enumerate(format_specifier)`. -/
def encodePayload : List Fmt → Nat → List (List PyVal) → Except Err (List Int)
  | [], _, _ => .ok []
  | f :: rest, i, data => do
    let r ← encodeRow f i data
    let rs ← encodePayload rest (i + 1) data
    .ok (r ++ rs)

/-- `SerialDispatch.publish`: builds the message header (UTF-8 topic bytes,
a zero terminator, the `dim` byte, two little-endian length bytes, the
packed specifier bytes) followed by the payload rows, and returns the
message.  An exception raised anywhere leaves nothing pushed. -/
def publish (topic : List Int) (data : List (List PyVal)) (fmts : List Fmt) :
    Except Err (List Int) := do
  let len ← publishLength data fmts
  let payload ← encodePayload fmts 0 data
  .ok (topic ++ [0, (data.length : Int),
        ((len &&& 255 : Nat) : Int), (((len &&& 65280) >>> 8 : Nat) : Int)] ++
      (packSpecifiers fmts).map (fun n => (n : Int)) ++ payload)

/-- The scan at the top of `run` for the first zero byte of a received
message: `zero_index` starts at `0` and is set at the first match, so a
message with no zero byte keeps index `0`. -/
def zeroIndex (msg : List Int) : Nat :=
  match msg.findIdx? (fun c => c = 0) with
  | some i => i
  | none => 0

/-- The specifier-unpacking loop of `run`: pops one byte, looks up its low
nibble, stops when `i` reaches `dim`, otherwise looks up the high nibble,
and repeats.  Popping an empty list raises `IndexError`; an unknown nibble
raises `KeyError` from the specifier dictionary.  Returns the unpacked
specifiers and the remaining message. -/
def pullSpecs : List Int → Int → Int → Except Err (List Fmt × List Int)
  | [], _, _ => .error .indexError
  | fs0 :: rest, i, dim =>
    match codeFmt (fs0.emod 16) with
    | none => .error .keyError
    | some f1 =>
      if i + 1 = dim then .ok ([f1], rest)
      else
        match codeFmt ((fs0.emod 256).ediv 16) with
        | none => .error .keyError
        | some f2 =>
          if i + 2 = dim then .ok ([f1, f2], rest)
          else
            match pullSpecs rest (i + 2) dim with
            | .error e => .error e
            | .ok (fl, m) => .ok (f1 :: f2 :: fl, m)

/-- The 16-bit recombination loop of `run`: pops pairs of bytes and forms
`b0 + b1 * 256`; an odd number of bytes raises `IndexError`. -/
def combine16 : List Int → Except Err (List Int)
  | [] => .ok []
  | [_] => .error .indexError
  | a :: b :: rest =>
    match combine16 rest with
    | .error e => .error e
    | .ok l => .ok ((a + b * 256) :: l)

/-- The 32-bit recombination loop of `run`: pops quadruples of bytes and
forms `b0 + b1 * 256 + b2 * 65536 + b3 * 16777216`; a remainder shorter
than four bytes raises `IndexError`. -/
def combine32 : List Int → Except Err (List Int)
  | [] => .ok []
  | [_] => .error .indexError
  | [_, _] => .error .indexError
  | [_, _, _] => .error .indexError
  | a :: b :: c :: d :: rest =>
    match combine32 rest with
    | .error e => .error e
    | .ok l => .ok ((a + b * 256 + c * 65536 + d * 16777216) :: l)

/-- The row-initialisation guard `if not self.topical_data` of `run`: the
topic is given a fresh empty row list only when the whole dictionary is
empty. -/
def initIfEmpty (store : Store) (topic : List Int) : Store :=
  if store = [] then setKey store topic (.prows []) else store

/-- `self.topical_data[topic].append(row)` after the guard: `KeyError` when
the dictionary is non-empty but lacks the topic, `AttributeError` when the
stored value is a string. -/
def appendRow (store : Store) (topic : List Int) (row : List Int) : Except Err Store :=
  let st := initIfEmpty store topic
  match getKey st topic with
  | none => .error .keyError
  | some (.pstr _) => .error .attributeError
  | some (.prows rs) => .ok (setKey st topic (.prows (rs ++ [row])))

/-- The per-specifier payload loop of `run`.  `STRING` stores the whole
remaining message as a string without consuming it; the numeric branches
slice `row_length` elements (times the width) off the front, recombine and
re-base signed values, and append the row to the stored row list; the
`FLOAT` branch and the unrecognized `NONE` branch only log and consume
nothing. -/
def decodeRows : List Fmt → List Int → Int → List Int → Store → Except Err (List Int × Store)
  | [], _, _, msg, store => .ok (msg, store)
  | f :: rest, topic, length, msg, store =>
    match f with
    | .STRING => decodeRows rest topic length msg (setKey store topic (.pstr msg))
    | .U8 =>
      match appendRow store topic (msg.take length.toNat) with
      | .error e => .error e
      | .ok st => decodeRows rest topic length (msg.drop length.toNat) st
    | .S8 =>
      let row := (msg.take length.toNat).map fun e => if e > 127 then e - 256 else e
      match appendRow store topic row with
      | .error e => .error e
      | .ok st => decodeRows rest topic length (msg.drop length.toNat) st
    | .U16 =>
      match combine16 (msg.take (length.toNat * 2)) with
      | .error e => .error e
      | .ok row16 =>
        match appendRow store topic row16 with
        | .error e => .error e
        | .ok st => decodeRows rest topic length (msg.drop (length.toNat * 2)) st
    | .S16 =>
      match combine16 (msg.take (length.toNat * 2)) with
      | .error e => .error e
      | .ok row16 =>
        match appendRow store topic (row16.map fun e => if e > 32767 then e - 65536 else e) with
        | .error e => .error e
        | .ok st => decodeRows rest topic length (msg.drop (length.toNat * 2)) st
    | .U32 =>
      match combine32 (msg.take (length.toNat * 4)) with
      | .error e => .error e
      | .ok row32 =>
        match appendRow store topic row32 with
        | .error e => .error e
        | .ok st => decodeRows rest topic length (msg.drop (length.toNat * 4)) st
    | .S32 =>
      match combine32 (msg.take (length.toNat * 4)) with
      | .error e => .error e
      | .ok row32 =>
        match appendRow store topic
            (row32.map fun e => if e > 2147483648 then e - 4294967296 else e) with
        | .error e => .error e
        | .ok st => decodeRows rest topic length (msg.drop (length.toNat * 4)) st
    | .NONE => decodeRows rest topic length msg store
    | .FLOAT => decodeRows rest topic length msg store

/-- Everything `run` extracts from one received frame. -/
structure Decoded where
  topic : List Int
  dim : Int
  rowLength : Int
  formats : List Fmt
  leftover : List Int
  store : Store
deriving DecidableEq, Repr

/-- The frame-parsing part of one `run` iteration (source lines 150 to 281):
topic scan, `dim` byte, two little-endian length bytes, specifier
unpacking, then the payload rows written into the topic store. -/
def decodeFrame (msg0 : List Int) (store0 : Store) : Except Err Decoded :=
  let zi := zeroIndex msg0
  let topic := msg0.take zi
  match msg0.drop (zi + 1) with
  | [] => .error .indexError
  | dim :: msg2 =>
    match msg2 with
    | [] => .error .indexError
    | l1 :: msg3 =>
      match msg3 with
      | [] => .error .indexError
      | l2 :: msg4 =>
        let length := l1 + l2 * 256
        match pullSpecs msg4 0 dim with
        | .error e => .error e
        | .ok (fmts, msg5) =>
          match decodeRows fmts topic length msg5 store0 with
          | .error e => .error e
          | .ok (leftover, store1) =>
            .ok ⟨topic, dim, length, fmts, leftover, store1⟩

/-- The dispatch loop at the end of a `run` iteration (source lines 283 to
299), processing the snapshot keys of `topical_data` against the live
store: a key without subscribers is popped without any invocation; a key
with subscribers has each callback invoked in list order (each invocation
recorded with the store it can read) and is popped only after the whole
callback list has run. -/
def dispatchEntries : List (List Int × PyData) → Store → Registry → Store × List Event
  | [], store, _ => (store, [])
  | (k, _) :: rest, store, regs =>
    match getKey regs k with
    | none => dispatchEntries rest (eraseKey store k) regs
    | some cbs =>
      let evs := cbs.map fun c => (k, c, store)
      let r := dispatchEntries rest (eraseKey store k) regs
      (r.1, evs ++ r.2)

/-- Runs the dispatch loop on a snapshot of the whole store (the source
takes `temp_dict = copy.deepcopy(self.topical_data)` and iterates its
keys). -/
def dispatchAll (store : Store) (regs : Registry) : Store × List Event :=
  dispatchEntries store store regs

/-- `SerialDispatch.get_data`: reads `self.topical_data[topic]`; a missing
topic raises `KeyError` (the NoData failure of the specification), modelled
as `none`. -/
def get_data (store : Store) (topic : List Int) : Option PyData :=
  getKey store topic

/-- The events of a dispatch trace belonging to one topic. -/
def topicEvents (tr : List Event) (topic : List Int) : List Event :=
  tr.filter fun e => decide (e.1 = topic)

/-- One full `run` iteration for one received frame: parse and store the
rows, then run the dispatch loop.  An exception anywhere propagates. -/
def processFrame (frame : List Int) (store : Store) (regs : Registry) :
    Except Err (Store × List Event) :=
  match decodeFrame frame store with
  | .error e => .error e
  | .ok d => .ok (dispatchAll d.store regs)

/-- The inner `while self.frame.rx_is_available` drain loop of `run` over a
queue of received frames.  The source has no exception handler, so an
exception raised while processing one frame terminates the loop: the
result records the store and events up to that point, the error, and no
event is ever produced for the remaining frames. -/
def drain : List (List Int) → Store → Registry → Store × List Event × Option Err
  | [], store, _ => (store, [], none)
  | frame :: rest, store, regs =>
    match processFrame frame store regs with
    | .error e => (store, [], some e)
    | .ok (store1, evs) =>
      let r := drain rest store1 regs
      (r.1, evs ++ r.2.1, r.2.2)

/-- `SerialDispatch.subscribe` on the subscriber dictionary: appends the
callback to the existing list of the topic, or creates a fresh
single-element list. -/
def subscribeReg (regs : Registry) (topic : List Int) (cb : Nat) : Registry :=
  match getKey regs topic with
  | none => setKey regs topic [cb]
  | some cbs => setKey regs topic (cbs ++ [cb])

/-- `SerialDispatch.unsubscribe`: `self.subscribers[topic]` raises
`KeyError` when the topic has no registered list; otherwise
`list.remove(callback)` drops the first matching callback (raising
`ValueError` when none matches, skipped entirely on an empty list), and
the topic entry is popped once its list is empty. -/
def unsubscribe (regs : Registry) (topic : List Int) (cb : Nat) : Except Err Registry :=
  match getKey regs topic with
  | none => .error .keyError
  | some cbs =>
    if cbs = [] then .ok (eraseKey regs topic)
    else if cb ∈ cbs then
      let cbs2 := cbs.erase cb
      if cbs2 = [] then .ok (eraseKey regs topic)
      else .ok (setKey regs topic cbs2)
    else .error .valueError

/-- The state held in the class attributes `topical_data` and
`subscribers` of `SerialDispatch`: one dictionary pair for the whole
process, because both are declared on the class body, not in
`__init__`. -/
structure ClassState where
  topical_data : Store
  subscribers : Registry
deriving DecidableEq, Repr

/-- `self.subscribe(topic, callback)` called through the instance
`selfInstance`: attribute lookup on `self.subscribers` resolves to the
class attribute and mutates it in place, so the instance identity does not
enter the computation at all. -/
def subscribe (selfInstance : Nat) (st : ClassState) (topic : List Int) (cb : Nat) :
    ClassState :=
  let _ := selfInstance
  { st with subscribers := subscribeReg st.subscribers topic cb }

/-- The subscriber dictionary as observed through the instance
`instanceId`: attribute lookup finds the single class attribute, identical
for every instance. -/
def viewSubscribers (instanceId : Nat) (st : ClassState) : Registry :=
  let _ := instanceId
  st.subscribers

lemma getKey_eraseKey_self {α β : Type} [DecidableEq α] (l : List (α × β)) (k : α) :
    getKey (eraseKey l k) k = none := by
  induction l with
  | nil => rfl
  | cons p rest ih =>
    obtain ⟨k1, v1⟩ := p
    unfold eraseKey
    by_cases h : k1 = k
    · rw [if_pos h]; exact ih
    · rw [if_neg h]; unfold getKey; rw [if_neg h]; exact ih

lemma getKey_eraseKey_ne {α β : Type} [DecidableEq α] (l : List (α × β)) (k a : α)
    (h : k ≠ a) : getKey (eraseKey l k) a = getKey l a := by
  induction l with
  | nil => rfl
  | cons p rest ih =>
    obtain ⟨k1, v1⟩ := p
    unfold eraseKey
    by_cases h1 : k1 = k
    · rw [if_pos h1]
      rw [ih]
      conv_rhs => unfold getKey
      rw [if_neg (by rw [h1]; exact h)]
    · rw [if_neg h1]
      unfold getKey
      by_cases h2 : k1 = a
      · rw [if_pos h2, if_pos h2]
      · rw [if_neg h2, if_neg h2]; exact ih

lemma getKey_mem {α β : Type} [DecidableEq α] (l : List (α × β)) (k : α) (v : β)
    (h : getKey l k = some v) : k ∈ l.map Prod.fst := by
  induction l with
  | nil => exact absurd h (by simp [getKey])
  | cons p rest ih =>
    obtain ⟨k1, v1⟩ := p
    unfold getKey at h
    by_cases h1 : k1 = k
    · simp [h1]
    · rw [if_neg h1] at h
      simp [ih h]

lemma fmtCode_lt16 (f : Fmt) : fmtCode f < 16 := by
  cases f <;> decide

lemma fmtCode_and15 (f : Fmt) : fmtCode f &&& 15 = fmtCode f := by
  cases f <;> decide

lemma packSpecifiers_length (fmts : List Fmt) :
    (packSpecifiers fmts).length = (fmts.length + 1) / 2 := by
  induction fmts using packSpecifiers.induct with
  | case1 => rfl
  | case2 a =>
    simp only [packSpecifiers, List.length_cons, List.length_nil]
  | case3 a b rest ih =>
    simp only [packSpecifiers, List.length_cons]
    omega

lemma packSpecifiers_nibble (k : Nat) : ∀ (fmts : List Fmt),
    k < (packSpecifiers fmts).length →
    ((packSpecifiers fmts).getD k 0) % 16 = fmtCode (fmts.getD (2 * k) Fmt.NONE) ∧
    ((packSpecifiers fmts).getD k 0) / 16 =
      (if 2 * k + 1 < fmts.length then fmtCode (fmts.getD (2 * k + 1) Fmt.NONE) else 0) := by
  induction k with
  | zero =>
    intro fmts h
    match fmts with
    | [] => exact absurd h (by simp [packSpecifiers])
    | [a] =>
      constructor
      · show (fmtCode a &&& 15) % 16 = fmtCode a
        rw [fmtCode_and15]
        exact Nat.mod_eq_of_lt (fmtCode_lt16 a)
      · show (fmtCode a &&& 15) / 16 = if 2 * 0 + 1 < 1 then _ else 0
        rw [fmtCode_and15, if_neg (by omega)]
        exact Nat.div_eq_of_lt (fmtCode_lt16 a)
    | a :: b :: rest =>
      have hb : (packSpecifiers (a :: b :: rest)).getD 0 0
          = fmtCode a + fmtCode b * 16 := by
        show (fmtCode a &&& 15) + ((fmtCode b &&& 15) <<< 4) = fmtCode a + fmtCode b * 16
        rw [fmtCode_and15, fmtCode_and15, Nat.shiftLeft_eq]
      constructor
      · rw [hb]
        show (fmtCode a + fmtCode b * 16) % 16 = fmtCode a
        rw [Nat.add_mul_mod_self_right]
        exact Nat.mod_eq_of_lt (fmtCode_lt16 a)
      · rw [hb, if_pos (by simp only [List.length_cons]; omega)]
        show (fmtCode a + fmtCode b * 16) / 16 = fmtCode b
        rw [Nat.add_mul_div_right _ _ (by omega : 0 < 16),
          Nat.div_eq_of_lt (fmtCode_lt16 a), Nat.zero_add]
  | succ k ih =>
    intro fmts h
    match fmts with
    | [] => exact absurd h (by simp [packSpecifiers])
    | [a] => exact absurd h (by simp [packSpecifiers])
    | a :: b :: rest =>
      have hlen : (packSpecifiers (a :: b :: rest)).length
          = (packSpecifiers rest).length + 1 := by
        simp [packSpecifiers]
      have hk : k < (packSpecifiers rest).length := by
        rw [hlen] at h; omega
      obtain ⟨ih1, ih2⟩ := ih rest hk
      have hg : (packSpecifiers (a :: b :: rest)).getD (k + 1) 0
          = (packSpecifiers rest).getD k 0 := rfl
      have hi1 : (a :: b :: rest).getD (2 * (k + 1)) Fmt.NONE
          = rest.getD (2 * k) Fmt.NONE := by
        have h2 : 2 * (k + 1) = 2 * k + 1 + 1 := by omega
        rw [h2]
        rfl
      have hi2 : (a :: b :: rest).getD (2 * (k + 1) + 1) Fmt.NONE
          = rest.getD (2 * k + 1) Fmt.NONE := by
        have h2 : 2 * (k + 1) + 1 = 2 * k + 1 + 1 + 1 := by omega
        rw [h2]
        rfl
      refine ⟨by rw [hg, hi1]; exact ih1, ?_⟩
      rw [hg, hi2]
      by_cases hc : 2 * k + 1 < rest.length
      · rw [if_pos (by simp only [List.length_cons]; omega)]
        rw [ih2, if_pos hc]
      · rw [if_neg (by simp only [List.length_cons]; omega)]
        rw [ih2, if_neg hc]

lemma topicEvents_append (a b : List Event) (t : List Int) :
    topicEvents (a ++ b) t = topicEvents a t ++ topicEvents b t := by
  unfold topicEvents
  exact List.filter_append _ _

lemma topicEvents_map_self (cbs : List Nat) (t : List Int) (s : Store) :
    topicEvents (cbs.map fun c => (t, c, s)) t = cbs.map fun c => (t, c, s) := by
  induction cbs with
  | nil => rfl
  | cons c cs ih =>
    simp only [List.map_cons, topicEvents, List.filter_cons] at *
    simp [ih]

lemma topicEvents_map_ne (cbs : List Nat) (kk t : List Int) (s : Store) (h : kk ≠ t) :
    topicEvents (cbs.map fun c => (kk, c, s)) t = [] := by
  induction cbs with
  | nil => rfl
  | cons c cs ih =>
    simp only [List.map_cons, topicEvents, List.filter_cons] at *
    simp [h, ih]

lemma dispatchEntries_absent (entries : List (List Int × PyData)) :
    ∀ (store : Store) (regs : Registry) (t : List Int), t ∉ entries.map Prod.fst →
    getKey (dispatchEntries entries store regs).1 t = getKey store t ∧
    topicEvents (dispatchEntries entries store regs).2 t = [] := by
  induction entries with
  | nil => intro store regs t _; exact ⟨rfl, rfl⟩
  | cons p rest ih =>
    intro store regs t h
    obtain ⟨k, w⟩ := p
    have hkt : k ≠ t := by
      intro hk
      exact h (by simp [hk])
    have ht : t ∉ rest.map Prod.fst := by
      intro hm
      exact h (by simp [hm])
    obtain ⟨ih1, ih2⟩ := ih (eraseKey store k) regs t ht
    cases hreg : getKey regs k with
    | none =>
      simp only [dispatchEntries, hreg]
      exact ⟨by rw [ih1, getKey_eraseKey_ne store k t hkt], ih2⟩
    | some cbs =>
      simp only [dispatchEntries, hreg]
      constructor
      · rw [ih1, getKey_eraseKey_ne store k t hkt]
      · rw [topicEvents_append, topicEvents_map_ne cbs k t store hkt, ih2,
          List.nil_append]

lemma dispatchEntries_present (entries : List (List Int × PyData)) :
    ∀ (store : Store) (regs : Registry) (t : List Int) (v : PyData),
    (entries.map Prod.fst).Nodup → getKey store t = some v → t ∈ entries.map Prod.fst →
    getKey (dispatchEntries entries store regs).1 t = none ∧
    (getKey regs t = none → topicEvents (dispatchEntries entries store regs).2 t = []) ∧
    (∀ cbs, getKey regs t = some cbs →
      (topicEvents (dispatchEntries entries store regs).2 t).map (fun e => e.2.1) = cbs ∧
      ∀ e ∈ topicEvents (dispatchEntries entries store regs).2 t,
        getKey e.2.2 t = some v) := by
  induction entries with
  | nil => intro store regs t v _ _ hm; exact absurd hm (by simp)
  | cons p rest ih =>
    intro store regs t v hnd hv hm
    obtain ⟨k, w⟩ := p
    simp only [List.map_cons, List.nodup_cons] at hnd
    obtain ⟨hknr, hndr⟩ := hnd
    by_cases hkt : k = t
    · subst hkt
      have habs := dispatchEntries_absent rest (eraseKey store k) regs k hknr
      obtain ⟨ha1, ha2⟩ := habs
      have hself : getKey (eraseKey store k) k = none := getKey_eraseKey_self store k
      cases hreg : getKey regs k with
      | none =>
        simp only [dispatchEntries, hreg]
        refine ⟨by rw [ha1, hself], fun _ => ha2, ?_⟩
        intro cbs hc
        exact absurd hc (by simp)
      | some cbs =>
        simp only [dispatchEntries, hreg]
        refine ⟨by rw [ha1, hself], ?_, ?_⟩
        · intro hc
          exact absurd hc (by simp)
        · intro cbs1 hc
          have hcc : cbs = cbs1 := Option.some.inj hc
          subst hcc
          rw [topicEvents_append, topicEvents_map_self cbs k store, ha2,
            List.append_nil]
          constructor
          · rw [List.map_map]
            exact List.map_id cbs
          · intro e he
            obtain ⟨c, _, hce⟩ := List.mem_map.mp he
            rw [← hce]
            exact hv
    · have htr : t ∈ rest.map Prod.fst := by
        simp only [List.map_cons, List.mem_cons] at hm
        rcases hm with hk | hr
        · exact absurd hk.symm hkt
        · exact hr
      have hv2 : getKey (eraseKey store k) t = some v := by
        rw [getKey_eraseKey_ne store k t hkt]
        exact hv
      obtain ⟨ih1, ih2, ih3⟩ := ih (eraseKey store k) regs t v hndr hv2 htr
      cases hreg : getKey regs k with
      | none =>
        simp only [dispatchEntries, hreg]
        exact ⟨ih1, ih2, ih3⟩
      | some cbs =>
        simp only [dispatchEntries, hreg]
        refine ⟨ih1, ?_, ?_⟩
        · intro hc
          rw [topicEvents_append, topicEvents_map_ne cbs k t store hkt,
            List.nil_append]
          exact ih2 hc
        · intro cbs1 hc
          rw [topicEvents_append, topicEvents_map_ne cbs k t store hkt,
            List.nil_append]
          exact ih3 cbs1 hc

/-- Claim C1: the claimed encode-decode round trip fails on the code at the
representable value 0.  Publishing the single-element row [[0]] as U8 emits
the payload byte 256 (the sign-offset condition `x > 0` also offsets zero),
and decoding the produced bytes stores the value 256 under the topic, not
the published value 0. -/
theorem claim_C1_roundtrip_fails_at_zero :
    publish [116] [[PyVal.vint 0]] [Fmt.U8] = Except.ok [116, 0, 1, 1, 0, 2, 256] ∧
    decodeFrame [116, 0, 1, 1, 0, 2, 256] [] =
      Except.ok ⟨[116], 1, 1, [Fmt.U8], [], [([116], PyData.prows [[256]])]⟩ ∧
    PyData.prows [[(256 : Int)]] ≠ PyData.prows [[0]] :=
  ⟨rfl, rfl, by decide⟩

/-- Claim C2: the claim that a decode failure never terminates the ingest
loop fails on the code.  Draining the queue holding the malformed frame
[65] followed by a well-formed frame for the subscribed topic [116] stops
at the uncaught IndexError of the first frame: no event is ever produced,
although draining the well-formed frame alone invokes the subscriber. -/
theorem claim_C2_decode_failure_kills_loop :
    drain [[65], [116, 0, 1, 1, 0, 2, 5]] [] [([116], [0])] =
      ([], [], some Err.indexError) ∧
    drain [[116, 0, 1, 1, 0, 2, 5]] [] [([116], [0])] =
      ([], [([116], 0, [([116], PyData.prows [[5]])])], none) :=
  ⟨rfl, rfl⟩

/-- Claim C3: the claim that a frame with no 0x00 byte fails with
MalformedFrame fails on the code.  The frame [65, 1, 1, 1, 2, 7] has no
zero byte, yet decoding succeeds silently: the zero index stays 0, the
topic becomes the empty string, the first byte is dropped, and the row
[[7]] is stored under the empty topic. -/
theorem claim_C3_no_terminator_silently_parsed :
    decodeFrame [65, 1, 1, 1, 2, 7] [] =
      Except.ok ⟨[], 1, 257, [Fmt.U8], [], [([], PyData.prows [[7]])]⟩ :=
  rfl

/-- Claim C4: the claim that FLOAT fails loudly with UnsupportedFormat
fails on the code.  Publishing with a FLOAT specifier succeeds, returning
a frame whose payload bytes are simply missing (the branch only logs), and
decoding a frame with a FLOAT specifier nibble also succeeds, leaving the
payload byte 99 unconsumed and storing nothing. -/
theorem claim_C4_float_only_logged :
    publish [116] [[PyVal.vint 1]] [Fmt.FLOAT] = Except.ok [116, 0, 1, 1, 0, 8] ∧
    decodeFrame [116, 0, 1, 1, 0, 8, 99] [] =
      Except.ok ⟨[116], 1, 1, [Fmt.FLOAT], [99], []⟩ :=
  ⟨rfl, rfl⟩

/-- Claim C5: the claim that every non-negative 8-bit element in 0..255 is
emitted verbatim fails on the code at the element 0.  The offset condition
is `x > 0`, so the S8 row [0] is emitted as the single value 256 instead
of the byte 0. -/
theorem claim_C5_zero_not_emitted_verbatim :
    publish [116] [[PyVal.vint 0]] [Fmt.S8] = Except.ok [116, 0, 1, 1, 0, 3, 256] ∧
    [116, 0, 1, 1, 0, 3, (256 : Int)] ≠ [116, 0, 1, 1, 0, 3, 0] :=
  ⟨rfl, by decide⟩

/-- Claim C6, counterexample: for the format list [NONE] with data
[[ab]], the claim requires the encoded row_length to be the character
count 2 of the first row, but publish only takes the character count when
the format list is exactly [STRING]; here it writes the element count 1
(fourth byte of the frame). -/
theorem claim_C6_counterexample :
    publish [116] [[PyVal.vstr [97, 98]]] [Fmt.NONE] =
      Except.ok [116, 0, 1, 1, 0, 0, 97, 98] ∧
    ¬ publish [116] [[PyVal.vstr [97, 98]]] [Fmt.NONE] =
      Except.ok [116, 0, 1, 2, 0, 0, 97, 98] := by
  constructor
  · rfl
  · intro h
    have h1 : publish [116] [[PyVal.vstr [97, 98]]] [Fmt.NONE] =
        Except.ok [116, 0, 1, 1, 0, 0, 97, 98] := rfl
    rw [h1] at h
    simp only [Except.ok.injEq] at h
    exact absurd h (by decide)

/-- Claim C6, amended: the encoded row_length equals the character count
of the first element of the first row exactly when the format list is
[STRING] and nothing else, and equals the element count of the first row
for every other format list (including [NONE] and multi-specifier lists
starting with STRING). -/
theorem claim_C6_amended (data : List (List PyVal)) (fmts : List Fmt) (row0 : List PyVal)
    (h : data.head? = some row0) :
    (fmts ≠ [Fmt.STRING] → publishLength data fmts = Except.ok row0.length) ∧
    (∀ s rest, fmts = [Fmt.STRING] → row0 = PyVal.vstr s :: rest →
      publishLength data fmts = Except.ok s.length) := by
  constructor
  · intro hne
    unfold publishLength
    rw [if_neg hne, h]
  · intro s rest hf hr
    subst hf
    subst hr
    unfold publishLength
    rw [if_pos rfl, h]
    rfl

/-- Witness for claim C6, amended: a two-element U8 row yields row_length
2, and a three-character string under [STRING] yields row_length 3. -/
theorem claim_C6_amended_witness :
    publishLength [[PyVal.vint 3, PyVal.vint 4]] [Fmt.U8] = Except.ok 2 ∧
    publishLength [[PyVal.vstr [97, 98, 99]]] [Fmt.STRING] = Except.ok 3 := by
  constructor
  · exact (claim_C6_amended [[PyVal.vint 3, PyVal.vint 4]] [Fmt.U8]
      [PyVal.vint 3, PyVal.vint 4] rfl).1 (by decide)
  · exact (claim_C6_amended [[PyVal.vstr [97, 98, 99]]] [Fmt.STRING]
      [PyVal.vstr [97, 98, 99]] rfl).2 [97, 98, 99] [] rfl rfl

/-- Claim C7: when the dispatch loop runs over a store holding a value for
a topic, then after dispatch the value accessor fails with NoData for that
topic; if the topic has no subscribers no callback is invoked for it; and
if it has a registered callback list, the invocations for the topic are
exactly that list in insertion order (callbacks receive no value
argument), and every invocation can still read the stored value through
the accessor, the entry being removed only after the whole list has
run. -/
theorem claim_C7_dispatch_consumption (store : Store) (regs : Registry)
    (topic : List Int) (v : PyData)
    (hnd : (store.map Prod.fst).Nodup) (hv : getKey store topic = some v) :
    get_data (dispatchAll store regs).1 topic = none ∧
    (getKey regs topic = none → topicEvents (dispatchAll store regs).2 topic = []) ∧
    (∀ cbs, getKey regs topic = some cbs →
      (topicEvents (dispatchAll store regs).2 topic).map (fun e => e.2.1) = cbs ∧
      ∀ e ∈ topicEvents (dispatchAll store regs).2 topic,
        get_data e.2.2 topic = some v) := by
  have hm : topic ∈ store.map Prod.fst := getKey_mem store topic v hv
  exact dispatchEntries_present store store regs topic v hnd hv hm

/-- Witness for claim C7: topic [116] with stored rows [[5]] and two
subscribers 3 and 4; both run in order reading the value, and afterwards
the accessor returns none. -/
theorem claim_C7_witness :
    get_data (dispatchAll [([116], PyData.prows [[5]])] [([116], [3, 4])]).1 [116]
      = none ∧
    (topicEvents (dispatchAll [([116], PyData.prows [[5]])] [([116], [3, 4])]).2
        [116]).map (fun e => e.2.1) = [3, 4] ∧
    ∀ e ∈ topicEvents (dispatchAll [([116], PyData.prows [[5]])] [([116], [3, 4])]).2
        [116], get_data e.2.2 [116] = some (PyData.prows [[5]]) := by
  have h := claim_C7_dispatch_consumption [([116], PyData.prows [[5]])]
    [([116], [3, 4])] [116] (PyData.prows [[5]]) (by decide) rfl
  exact ⟨h.1, (h.2.2 [3, 4] rfl).1, (h.2.2 [3, 4] rfl).2⟩

/-- Claim C8: unsubscribe on a topic with no registered callback list
fails with the NotFound error (the uncaught KeyError) rather than silently
doing nothing; and when removing the first matching callback empties the
list, the topic entry disappears from the registry entirely. -/
theorem claim_C8_unsubscribe (regs : Registry) (topic : List Int) (cb : Nat) :
    (getKey regs topic = none → unsubscribe regs topic cb = Except.error Err.keyError) ∧
    (∀ cbs, getKey regs topic = some cbs → cb ∈ cbs → cbs.erase cb = [] →
      ∃ regs2, unsubscribe regs topic cb = Except.ok regs2 ∧
        getKey regs2 topic = none) := by
  constructor
  · intro h
    unfold unsubscribe
    rw [h]
  · intro cbs h hmem hempty
    refine ⟨eraseKey regs topic, ?_, getKey_eraseKey_self regs topic⟩
    have hne : cbs ≠ [] := by
      intro hc
      subst hc
      exact absurd hmem (by simp)
    simp only [unsubscribe, h]
    rw [if_neg hne, if_pos hmem, if_pos hempty]

/-- Witness for claim C8: an empty registry fails with the KeyError, and
removing the only callback 5 of topic [116] removes the whole entry. -/
theorem claim_C8_witness :
    unsubscribe ([] : Registry) [116] 0 = Except.error Err.keyError ∧
    ∃ regs2, unsubscribe [([116], [5])] [116] 5 = Except.ok regs2 ∧
      getKey regs2 [116] = none := by
  constructor
  · exact (claim_C8_unsubscribe [] [116] 0).1 rfl
  · exact (claim_C8_unsubscribe [([116], [5])] [116] 5).2 [5] rfl (by decide) (by decide)

/-- Claim C9: for a format list of length dim between 1 and 255, the
packed specifier block has exactly ceil(dim/2) bytes, byte k carries the
code of specifier 2k in its low nibble and the code of specifier 2k+1 (0
when it does not exist) in its high nibble, and for [U8, S16, U32] the
block is exactly the two bytes 0x52 and 0x06. -/
theorem claim_C9_specifier_packing (fmts : List Fmt)
    (_h1 : 1 ≤ fmts.length) (_h2 : fmts.length ≤ 255) :
    (packSpecifiers fmts).length = (fmts.length + 1) / 2 ∧
    (∀ k, k < (packSpecifiers fmts).length →
      ((packSpecifiers fmts).getD k 0) % 16 = fmtCode (fmts.getD (2 * k) Fmt.NONE) ∧
      ((packSpecifiers fmts).getD k 0) / 16 =
        (if 2 * k + 1 < fmts.length then fmtCode (fmts.getD (2 * k + 1) Fmt.NONE)
          else 0)) ∧
    packSpecifiers [Fmt.U8, Fmt.S16, Fmt.U32] = [82, 6] :=
  ⟨packSpecifiers_length fmts, fun k hk => packSpecifiers_nibble k fmts hk, rfl⟩

/-- Witness for claim C9 at the three-specifier list [U8, S16, U32]. -/
theorem claim_C9_witness :
    (packSpecifiers [Fmt.U8, Fmt.S16, Fmt.U32]).length =
      (([Fmt.U8, Fmt.S16, Fmt.U32] : List Fmt).length + 1) / 2 ∧
    packSpecifiers [Fmt.U8, Fmt.S16, Fmt.U32] = [82, 6] := by
  have h := claim_C9_specifier_packing [Fmt.U8, Fmt.S16, Fmt.U32] (by decide) (by decide)
  exact ⟨h.1, h.2.2⟩

/-- Claim C10: the claim that the topic store and subscriber registry are
per-instance state fails on the code.  Both are class attributes, so a
subscribe performed through instance 0 changes the registry observed
through the distinct instance 1: it is empty before and holds the new
subscription afterwards. -/
theorem claim_C10_state_shared_across_instances :
    viewSubscribers 1 (subscribe 0 ⟨[], []⟩ [116] 7) = [([116], [7])] ∧
    viewSubscribers 1 (⟨[], []⟩ : ClassState) = [] ∧
    ([([116], [7])] : Registry) ≠ [] :=
  ⟨rfl, rfl, by decide⟩

end SerialDispatch
